import Mathlib

/-!
Verification of the credential-vault migration engine (server.js of the
1Password vault-migration tool).  Each definition below is a shallow
embedding of the corresponding JavaScript function; remote calls
(SDK/CLI invocations) are modelled as explicit `Except`-valued oracles
supplied through environment records, so every definition is executable.
-/

namespace VaultMigration

/-- Does the character list `s` start with `pre`? -/
def charsStartWith (s pre : List Char) : Bool :=
  s.take pre.length == pre

/-- Does the character list contain `sub` as a contiguous run? -/
def charsContain (sub : List Char) : List Char → Bool
  | [] => charsStartWith [] sub
  | c :: rest => charsStartWith (c :: rest) sub || charsContain sub rest

/-- JS `s.includes(sub)`: substring containment. -/
def jsIncludes (s sub : String) : Bool :=
  charsContain sub.data s.data

/-- JS `a || b` on strings, where the empty string is falsy. -/
def orElseStr (a b : String) : String :=
  if a = "" then b else a

/-- JS `s.toLowerCase()` (ASCII, which is all the call sites use). -/
def jsToLower (s : String) : String :=
  ⟨s.data.map Char.toLower⟩

/-- JS `s.trim()`. -/
def jsTrim (s : String) : String :=
  ⟨((s.data.dropWhile Char.isWhitespace).reverse.dropWhile Char.isWhitespace).reverse⟩

/-- JS `s.startsWith(pre)`. -/
def jsStartsWith (s pre : String) : Bool :=
  charsStartWith s.data pre.data

/-- JS falsiness of an optional string (`undefined` or `""`). -/
def jsFalsyOptStr : Option String → Bool
  | none => true
  | some s => s == ""

/-- The `sdk.ItemFieldType` values used by server.js; `Other` stands for
any further member of the SDK enumeration. -/
inductive FieldType where
  | Text | Concealed | Totp | Address | SshKey | Date | MonthYear
  | Email | Phone | Url | Menu | CreditCardType | CreditCardNumber
  | Other (tag : String)
deriving DecidableEq, Repr

/-- `field.details.content` of a source field: the optional sub-values the
transcoder reads (address components, SSH private key, TOTP seed). -/
structure DetailsContent where
  street : Option String := none
  city : Option String := none
  country : Option String := none
  zip : Option String := none
  state : Option String := none
  privateKey : Option String := none
  totp : Option String := none
deriving DecidableEq, Repr

/-- A source item field as read from the SDK.  Absent string properties are
modelled as `""` (JS treats `undefined` and `""` the same at every use site
here, via `||`); genuinely optional properties are `Option`. -/
structure SrcField where
  id : String := ""
  title : String := ""
  label : String := ""
  fieldType : Option FieldType := none
  value : String := ""
  sectionId : Option String := none
  details : Option DetailsContent := none
deriving DecidableEq, Repr

/-- Destination address composite produced for Address fields. -/
structure AddressContent where
  street : String
  city : String
  country : String
  zip : String
  state : String
deriving DecidableEq, Repr

/-- A destination item field as built by the transcoder. -/
structure DestField where
  id : String
  title : String
  fieldType : FieldType
  value : String
  sectionId : Option String
  details : Option AddressContent := none
deriving DecidableEq, Repr

/-! ### Expiry normalization (credit-card branch of `migrateVault`)

The JS code tests `field.value` against four regexes in order:
`/^\d{2}\/\d{4}$/`, `/^\d{2}-\d{4}$/`, `/^\d{2}\d{2}$/`, `/^\d{2}\/\d{2}$/`,
falling back to `"01/1970"` (also for the empty string). -/

/-- `/^\d{2}\/\d{4}$/` on a character list (separator test placed first so
mismatching shapes reduce definitionally). -/
def matchMMslashYYYY : List Char → Bool
  | [a, b, s, c, d, e, f] =>
      s == '/' && a.isDigit && b.isDigit && c.isDigit && d.isDigit && e.isDigit && f.isDigit
  | _ => false

/-- `/^\d{2}-\d{4}$/`. -/
def matchMMdashYYYY : List Char → Bool
  | [a, b, s, c, d, e, f] =>
      s == '-' && a.isDigit && b.isDigit && c.isDigit && d.isDigit && e.isDigit && f.isDigit
  | _ => false

/-- `/^\d{2}\d{2}$/` (i.e. exactly four digits). -/
def matchMMYY : List Char → Bool
  | [a, b, c, d] => a.isDigit && b.isDigit && c.isDigit && d.isDigit
  | _ => false

/-- `/^\d{2}\/\d{2}$/`. -/
def matchMMslashYY : List Char → Bool
  | [a, b, s, c, d] => s == '/' && a.isDigit && b.isDigit && c.isDigit && d.isDigit
  | _ => false

/-- JS `s.replace('-','/')`: replace the first `'-'` only. -/
def replaceFirstDash : List Char → List Char
  | [] => []
  | c :: rest => if c == '-' then '/' :: rest else c :: replaceFirstDash rest

/-- The sentinel `"01/1970"` as a character list. -/
def jan1970 : List Char := ['0', '1', '/', '1', '9', '7', '0']

/-- Expiry normalization on the character list of `field.value || ""`,
mirroring the if/else-if chain of the credit-card branch (the empty-value
`else` of the JS is the first case here). -/
def normalizeExpiryChars (v : List Char) : List Char :=
  if v = [] then jan1970
  else if matchMMslashYYYY v then v
  else if matchMMdashYYYY v then replaceFirstDash v
  else if matchMMYY v then v.take 2 ++ '/' :: '2' :: '0' :: v.drop 2
  else if matchMMslashYY v then v.take 2 ++ '/' :: '2' :: '0' :: v.drop 3
  else jan1970

/-- Expiry normalization on strings. -/
def normalizeExpiry (s : String) : String :=
  ⟨normalizeExpiryChars s.data⟩

/-! ### Credit-card field transcoding (`migrateVault`, credit-card branch) -/

/-- The `cardTypeMap` object literal; lookup misses are `undefined`. -/
def cardTypeMap (v : String) : Option String :=
  if v = "mc" then some "Mastercard"
  else if v = "visa" then some "Visa"
  else if v = "amex" then some "American Express"
  else if v = "discover" then some "Discover"
  else none

def builtInFieldIds : List String :=
  ["cardholder", "type", "number", "ccnum", "cvv", "expiry"]

/-- The per-field mapper of the credit-card branch: builds `newField` and
then applies the sequential role-detection `if` statements, each of which
mutates `newField` in place in the JS. -/
def transcodeCCField (f : SrcField) : DestField :=
  let tl := jsToLower f.title
  let base : DestField :=
    { id := orElseStr f.id "unnamed"
      title := orElseStr f.title (orElseStr f.label "unnamed")
      fieldType := f.fieldType.getD .Text
      value := f.value
      sectionId := f.sectionId }
  let b1 :=
    if f.id = "type" ∨ jsIncludes tl "type" = true then
      { base with
        fieldType := .CreditCardType
        -- JS: cardTypeMap[field.value.toLowerCase()] || field.value || "Unknown"
        value := match cardTypeMap (jsToLower f.value) with
                 | some m => m
                 | none => orElseStr f.value "Unknown" }
    else base
  let b2 :=
    if f.id = "expiry" ∨ jsIncludes tl "expiry" = true ∨ jsIncludes tl "expiration" = true then
      { b1 with fieldType := .MonthYear, value := normalizeExpiry f.value }
    else b1
  let b3 :=
    if f.id = "number" ∨ f.id = "ccnum" ∨ jsIncludes tl "number" = true then
      { b2 with fieldType := .CreditCardNumber }
    else b2
  let b4 :=
    if f.id = "cvv" ∨ jsIncludes tl "verification" = true then
      { b3 with fieldType := .Concealed }
    else b3
  let b5 :=
    if f.id = "pin" ∨ jsIncludes tl "pin" = true then
      { b4 with fieldType := .Concealed }
    else b4
  if jsFalsyOptStr b5.sectionId = true ∧ b5.id ∉ builtInFieldIds then
    { b5 with sectionId := some "add more" }
  else b5

/-! ### Lemmas about expiry normalization -/

lemma matchMMslashYYYY_spec {v : List Char} (h : matchMMslashYYYY v = true) :
    ∃ a b c d e g, v = [a, b, '/', c, d, e, g] ∧ a.isDigit = true ∧ b.isDigit = true
      ∧ c.isDigit = true ∧ d.isDigit = true ∧ e.isDigit = true ∧ g.isDigit = true := by
  rcases v with _ | ⟨a, _ | ⟨b, _ | ⟨s, _ | ⟨c, _ | ⟨d, _ | ⟨e, _ | ⟨g, _ | ⟨x, t⟩⟩⟩⟩⟩⟩⟩⟩ <;>
    simp [matchMMslashYYYY] at h
  obtain ⟨⟨⟨⟨⟨⟨hs, ha⟩, hb⟩, hc⟩, hd⟩, he⟩, hg⟩ := h
  subst hs
  exact ⟨a, b, c, d, e, g, rfl, ha, hb, hc, hd, he, hg⟩

lemma matchMMdashYYYY_spec {v : List Char} (h : matchMMdashYYYY v = true) :
    ∃ a b c d e g, v = [a, b, '-', c, d, e, g] ∧ a.isDigit = true ∧ b.isDigit = true
      ∧ c.isDigit = true ∧ d.isDigit = true ∧ e.isDigit = true ∧ g.isDigit = true := by
  rcases v with _ | ⟨a, _ | ⟨b, _ | ⟨s, _ | ⟨c, _ | ⟨d, _ | ⟨e, _ | ⟨g, _ | ⟨x, t⟩⟩⟩⟩⟩⟩⟩⟩ <;>
    simp [matchMMdashYYYY] at h
  obtain ⟨⟨⟨⟨⟨⟨hs, ha⟩, hb⟩, hc⟩, hd⟩, he⟩, hg⟩ := h
  subst hs
  exact ⟨a, b, c, d, e, g, rfl, ha, hb, hc, hd, he, hg⟩

lemma matchMMYY_spec {v : List Char} (h : matchMMYY v = true) :
    ∃ a b c d, v = [a, b, c, d] ∧ a.isDigit = true ∧ b.isDigit = true
      ∧ c.isDigit = true ∧ d.isDigit = true := by
  rcases v with _ | ⟨a, _ | ⟨b, _ | ⟨c, _ | ⟨d, _ | ⟨x, t⟩⟩⟩⟩⟩ <;>
    simp [matchMMYY] at h
  obtain ⟨⟨⟨ha, hb⟩, hc⟩, hd⟩ := h
  exact ⟨a, b, c, d, rfl, ha, hb, hc, hd⟩

lemma matchMMslashYY_spec {v : List Char} (h : matchMMslashYY v = true) :
    ∃ a b c d, v = [a, b, '/', c, d] ∧ a.isDigit = true ∧ b.isDigit = true
      ∧ c.isDigit = true ∧ d.isDigit = true := by
  rcases v with _ | ⟨a, _ | ⟨b, _ | ⟨s, _ | ⟨c, _ | ⟨d, _ | ⟨x, t⟩⟩⟩⟩⟩⟩ <;>
    simp [matchMMslashYY] at h
  obtain ⟨⟨⟨⟨hs, ha⟩, hb⟩, hc⟩, hd⟩ := h
  subst hs
  exact ⟨a, b, c, d, rfl, ha, hb, hc, hd⟩

lemma isDigit_beq_dash_eq_false {a : Char} (h : a.isDigit = true) : (a == '-') = false := by
  by_cases hd : a = '-'
  · subst hd
    exact absurd h (by decide)
  · exact beq_eq_false_iff_ne.mpr hd

/-- Every output of the normalizer again matches `MM/YYYY`. -/
lemma normalizeExpiryChars_matches (v : List Char) :
    matchMMslashYYYY (normalizeExpiryChars v) = true := by
  unfold normalizeExpiryChars
  split_ifs with h0 h1 h2 h3 h4
  · decide
  · exact h1
  · obtain ⟨a, b, c, d, e, g, rfl, ha, hb, hc, hd, he, hg⟩ := matchMMdashYYYY_spec h2
    simp [replaceFirstDash, isDigit_beq_dash_eq_false ha, isDigit_beq_dash_eq_false hb,
      matchMMslashYYYY, ha, hb, hc, hd, he, hg]
  · obtain ⟨a, b, c, d, rfl, ha, hb, hc, hd⟩ := matchMMYY_spec h3
    simp [matchMMslashYYYY, ha, hb, hc, hd]
  · obtain ⟨a, b, c, d, rfl, ha, hb, hc, hd⟩ := matchMMslashYY_spec h4
    simp [matchMMslashYYYY, ha, hb, hc, hd]
  · decide

/-- A value already in `MM/YYYY` form is returned unchanged. -/
lemma normalizeExpiryChars_of_match {v : List Char} (h : matchMMslashYYYY v = true) :
    normalizeExpiryChars v = v := by
  obtain ⟨a, b, c, d, e, g, rfl, _, _, _, _, _, _⟩ := matchMMslashYYYY_spec h
  simp [normalizeExpiryChars, h]

lemma normalizeExpiryChars_idem (v : List Char) :
    normalizeExpiryChars (normalizeExpiryChars v) = normalizeExpiryChars v :=
  normalizeExpiryChars_of_match (normalizeExpiryChars_matches v)

/-! ### Lemmas about the credit-card field mapper -/

lemma transcodeCCField_value_of_expiry (f : SrcField)
    (hexp : f.id = "expiry" ∨ jsIncludes (jsToLower f.title) "expiry" = true
      ∨ jsIncludes (jsToLower f.title) "expiration" = true) :
    (transcodeCCField f).value = normalizeExpiry f.value := by
  simp only [transcodeCCField]
  rw [if_pos hexp]
  split_ifs <;> rfl

lemma transcodeCCField_value_of_type (f : SrcField)
    (htype : f.id = "type" ∨ jsIncludes (jsToLower f.title) "type" = true)
    (hne : ¬ (f.id = "expiry" ∨ jsIncludes (jsToLower f.title) "expiry" = true
      ∨ jsIncludes (jsToLower f.title) "expiration" = true)) :
    (transcodeCCField f).value =
      (match cardTypeMap (jsToLower f.value) with
       | some m => m
       | none => orElseStr f.value "Unknown") := by
  simp only [transcodeCCField]
  rw [if_pos htype, if_neg hne]
  split_ifs <;> rfl

/-- C1 counterexample: a payment-card `type` field whose value is the
unrecognized abbreviation `"maestro"` keeps its original value — it is not
normalized to `"Unknown"` as the claim states. -/
theorem c1_unknown_counterexample :
    (transcodeCCField { id := "type", title := "type", value := "maestro" }).fieldType
        = FieldType.CreditCardType
    ∧ (transcodeCCField { id := "type", title := "type", value := "maestro" }).value
        = "maestro"
    ∧ "maestro" ≠ "Unknown" := by
  decide

/-- C1 (amended): for a payment-card field in the `type` role (id `"type"`
or title containing `"type"`) that is not also in the expiry role, the
transcoder normalizes recognized card-network abbreviations case-insensitively
(`mc→Mastercard`, `visa→Visa`, `amex→American Express`, `discover→Discover`);
an unrecognized non-empty value is passed through unchanged and only an empty
value becomes `"Unknown"`; the field type becomes the credit-card type when no
later role (number/verification/pin) also matches. -/
theorem c1_card_type_normalization (f : SrcField)
    (htype : f.id = "type" ∨ jsIncludes (jsToLower f.title) "type" = true)
    (hne : ¬ (f.id = "expiry" ∨ jsIncludes (jsToLower f.title) "expiry" = true
      ∨ jsIncludes (jsToLower f.title) "expiration" = true)) :
    ((∀ m, cardTypeMap (jsToLower f.value) = some m → (transcodeCCField f).value = m)
      ∧ (cardTypeMap (jsToLower f.value) = none → f.value ≠ "" →
          (transcodeCCField f).value = f.value)
      ∧ (f.value = "" → (transcodeCCField f).value = "Unknown"))
    ∧ cardTypeMap "mc" = some "Mastercard"
    ∧ cardTypeMap "visa" = some "Visa"
    ∧ cardTypeMap "amex" = some "American Express"
    ∧ cardTypeMap "discover" = some "Discover"
    ∧ (¬ (f.id = "number" ∨ f.id = "ccnum" ∨ jsIncludes (jsToLower f.title) "number" = true) →
        ¬ (f.id = "cvv" ∨ jsIncludes (jsToLower f.title) "verification" = true) →
        ¬ (f.id = "pin" ∨ jsIncludes (jsToLower f.title) "pin" = true) →
        (transcodeCCField f).fieldType = FieldType.CreditCardType) := by
  have hval := transcodeCCField_value_of_type f htype hne
  refine ⟨⟨?_, ?_, ?_⟩, by decide, by decide, by decide, by decide, ?_⟩
  · intro m hm
    rw [hval, hm]
  · intro hm hv
    rw [hval, hm]
    simp [orElseStr, hv]
  · intro hv
    have hm : cardTypeMap (jsToLower f.value) = none := by
      rw [hv]
      decide
    rw [hval, hm]
    simp [orElseStr, hv]
  · intro h3 h4 h5
    simp only [transcodeCCField]
    rw [if_pos htype, if_neg hne, if_neg h3, if_neg h4, if_neg h5]
    split_ifs <;> rfl

/-- C1 witness. -/
theorem c1_card_type_normalization_witness :
    (transcodeCCField { id := "type", title := "type", value := "mc" }).value = "Mastercard" :=
  (c1_card_type_normalization { id := "type", title := "type", value := "mc" }
    (Or.inl rfl) (by decide)).1.1 "Mastercard" (by decide)

/-- C2: expiry normalization in the credit-card branch is total and
idempotent.  For every credit-card field in the expiry role the transcoded
value is `normalizeExpiry` of the source value; `MM/YYYY` input is returned
unchanged, `MM-YYYY` becomes `MM/YYYY`, `MMYY` becomes `MM/20YY`, `MM/YY`
becomes `MM/20YY`, and the empty string as well as every input matching no
pattern becomes the sentinel `"01/1970"`; normalizing twice equals
normalizing once. -/
theorem c2_expiry_normalization :
    (∀ f : SrcField,
       (f.id = "expiry" ∨ jsIncludes (jsToLower f.title) "expiry" = true
         ∨ jsIncludes (jsToLower f.title) "expiration" = true) →
       (transcodeCCField f).value = normalizeExpiry f.value)
    ∧ (∀ a b c d e g : Char, a.isDigit = true → b.isDigit = true → c.isDigit = true →
        d.isDigit = true → e.isDigit = true → g.isDigit = true →
        normalizeExpiry ⟨[a, b, '/', c, d, e, g]⟩ = ⟨[a, b, '/', c, d, e, g]⟩
        ∧ normalizeExpiry ⟨[a, b, '-', c, d, e, g]⟩ = ⟨[a, b, '/', c, d, e, g]⟩)
    ∧ (∀ a b c d : Char, a.isDigit = true → b.isDigit = true → c.isDigit = true →
        d.isDigit = true →
        normalizeExpiry ⟨[a, b, c, d]⟩ = ⟨[a, b, '/', '2', '0', c, d]⟩
        ∧ normalizeExpiry ⟨[a, b, '/', c, d]⟩ = ⟨[a, b, '/', '2', '0', c, d]⟩)
    ∧ normalizeExpiry "" = "01/1970"
    ∧ (∀ s : String, matchMMslashYYYY s.data = false → matchMMdashYYYY s.data = false →
        matchMMYY s.data = false → matchMMslashYY s.data = false →
        normalizeExpiry s = "01/1970")
    ∧ (∀ s : String, normalizeExpiry (normalizeExpiry s) = normalizeExpiry s) := by
  refine ⟨transcodeCCField_value_of_expiry, ?_, ?_, by decide, ?_, ?_⟩
  · intro a b c d e g ha hb hc hd he hg
    constructor
    · have hm : matchMMslashYYYY [a, b, '/', c, d, e, g] = true := by
        simp [matchMMslashYYYY, ha, hb, hc, hd, he, hg]
      exact congrArg String.mk (normalizeExpiryChars_of_match hm)
    · have hm : matchMMdashYYYY [a, b, '-', c, d, e, g] = true := by
        simp [matchMMdashYYYY, ha, hb, hc, hd, he, hg]
      have hno : matchMMslashYYYY [a, b, '-', c, d, e, g] = false := by
        simp [matchMMslashYYYY]
      refine congrArg String.mk ?_
      show normalizeExpiryChars [a, b, '-', c, d, e, g] = _
      rw [normalizeExpiryChars, if_neg (by simp), if_neg (by simp [hno]), if_pos hm]
      simp [replaceFirstDash, isDigit_beq_dash_eq_false ha, isDigit_beq_dash_eq_false hb]
  · intro a b c d ha hb hc hd
    constructor
    · have hm : matchMMYY [a, b, c, d] = true := by
        simp [matchMMYY, ha, hb, hc, hd]
      refine congrArg String.mk ?_
      show normalizeExpiryChars [a, b, c, d] = _
      rw [normalizeExpiryChars, if_neg (by simp), if_neg (by simp [matchMMslashYYYY]),
        if_neg (by simp [matchMMdashYYYY]), if_pos hm]
      rfl
    · have hm : matchMMslashYY [a, b, '/', c, d] = true := by
        simp [matchMMslashYY, ha, hb, hc, hd]
      have h4 : matchMMYY [a, b, '/', c, d] = false := by
        simp [matchMMYY]
      refine congrArg String.mk ?_
      show normalizeExpiryChars [a, b, '/', c, d] = _
      rw [normalizeExpiryChars, if_neg (by simp), if_neg (by simp [matchMMslashYYYY]),
        if_neg (by simp [matchMMdashYYYY]), if_neg (by simp [h4]), if_pos hm]
      rfl
  · intro s h1 h2 h3 h4
    refine congrArg String.mk ?_
    by_cases hnil : s.data = []
    · rw [normalizeExpiryChars, if_pos hnil]
      rfl
    · rw [normalizeExpiryChars, if_neg hnil, if_neg (by simp [h1]), if_neg (by simp [h2]),
        if_neg (by simp [h3]), if_neg (by simp [h4])]
      rfl
  · intro s
    exact congrArg String.mk (normalizeExpiryChars_idem s.data)

/-- C2 witness. -/
theorem c2_expiry_normalization_witness :
    (transcodeCCField { id := "expiry", title := "expiry", value := "0225" }).value
        = normalizeExpiry "0225"
    ∧ normalizeExpiry ⟨['0', '2', '2', '5']⟩ = ⟨['0', '2', '/', '2', '0', '2', '5']⟩
    ∧ normalizeExpiry (normalizeExpiry "nonsense") = normalizeExpiry "nonsense" :=
  ⟨c2_expiry_normalization.1 { id := "expiry", title := "expiry", value := "0225" }
      (Or.inl rfl),
   (c2_expiry_normalization.2.2.1 '0' '2' '2' '5' (by decide) (by decide) (by decide)
      (by decide)).1,
   c2_expiry_normalization.2.2.2.2.2 "nonsense"⟩

/-! ### General field transcoding (`migrateVault`, non-credit-card branch) -/

/-- The ternary chain over `field.fieldType`: every recognized SDK field type
is kept, everything else (including `undefined`) falls through to `Text`. -/
def mapFieldType : Option FieldType → FieldType
  | some .Text => .Text
  | some .Concealed => .Concealed
  | some .Totp => .Totp
  | some .Address => .Address
  | some .SshKey => .SshKey
  | some .Date => .Date
  | some .MonthYear => .MonthYear
  | some .Email => .Email
  | some .Phone => .Phone
  | some .Url => .Url
  | some .Menu => .Menu
  | _ => .Text

/-- One character of `/^[A-Z2-7]{16,32}$/i`. -/
def totpSeedChar (c : Char) : Bool :=
  ('A' ≤ c && c ≤ 'Z') || ('a' ≤ c && c ≤ 'z') || ('2' ≤ c && c ≤ '7')

/-- `/^[A-Z2-7]{16,32}$/i.test(v)`. -/
def isPotentialTotpSeed (s : String) : Bool :=
  decide (16 ≤ s.data.length) && decide (s.data.length ≤ 32) && s.data.all totpSeedChar

/-- `v.startsWith("otpauth://totp/")`. -/
def isValidTotpUri (s : String) : Bool :=
  jsStartsWith s "otpauth://totp/"

/-- The effective one-time-code value:
`field.value || field.details?.content?.totp || ""`. -/
def totpValueOf (f : SrcField) : String :=
  orElseStr f.value ((f.details.bind (·.totp)).getD "")

/-- The per-field mapper of the general (non-credit-card) branch of
`migrateVault`: type chain, value default, conditional `sectionId` copy, and
the Address / SshKey / Totp / Date–MonthYear special cases. -/
def transcodeField (f : SrcField) : DestField :=
  let base : DestField :=
    { id := orElseStr f.id "unnamed"
      title := orElseStr f.title (orElseStr f.label "unnamed")
      fieldType := mapFieldType f.fieldType
      value := f.value
      -- JS sets sectionId only when the source field has one
      sectionId := f.sectionId
      details := none }
  if f.fieldType = some .Address ∧ f.details ≠ none then
    match f.details with
    | some c =>
      { base with
        details := some { street := c.street.getD "", city := c.city.getD "",
                          country := c.country.getD "", zip := c.zip.getD "",
                          state := c.state.getD "" }
        value := "" }
    | none => base
  else if f.fieldType = some .SshKey ∧ f.details ≠ none then
    match f.details with
    | some c => { base with value := orElseStr (c.privateKey.getD "") f.value }
    | none => base
  else if f.fieldType = some .Totp then
    let tv := totpValueOf f
    if isValidTotpUri tv || isPotentialTotpSeed tv then
      { base with value := tv }
    else
      { base with fieldType := .Text, value := tv }
  else if f.fieldType = some .Date ∨ f.fieldType = some .MonthYear then
    { base with value := f.value }
  else base

/-- C3: a one-time-code field whose effective value matches the base-32 seed
pattern `^[A-Z2-7]{16,32}$` (case-insensitively) or starts with the
`otpauth://totp/` URI form keeps the one-time-code field type and its value
verbatim; any other value downgrades the field type to plain text while the
value is still preserved unchanged. -/
theorem c3_totp_preservation (f : SrcField) (h : f.fieldType = some FieldType.Totp) :
    ((isValidTotpUri (totpValueOf f) || isPotentialTotpSeed (totpValueOf f)) = true →
      (transcodeField f).fieldType = FieldType.Totp
      ∧ (transcodeField f).value = totpValueOf f)
    ∧ ((isValidTotpUri (totpValueOf f) || isPotentialTotpSeed (totpValueOf f)) = false →
      (transcodeField f).fieldType = FieldType.Text
      ∧ (transcodeField f).value = totpValueOf f) := by
  constructor
  · intro hok
    simp [transcodeField, h, hok, mapFieldType]
  · intro hbad
    simp [transcodeField, h, hbad, mapFieldType]

/-- A sample one-time-code field with a well-formed base-32 seed. -/
def totpSample : SrcField :=
  { fieldType := some FieldType.Totp, value := "JBSWY3DPEHPK3PXP" }

/-- C3 witness. -/
theorem c3_totp_preservation_witness :
    (isValidTotpUri (totpValueOf totpSample)
        || isPotentialTotpSeed (totpValueOf totpSample)) = true
    ∧ (transcodeField totpSample).fieldType = FieldType.Totp
    ∧ (transcodeField totpSample).value = totpValueOf totpSample := by
  have h := (c3_totp_preservation totpSample rfl).1 (by decide)
  exact ⟨by decide, h.1, h.2⟩

/-! ### `retryWithBackoff`

The wrapped operation is modelled as a map from the (1-based) attempt number
to that invocation's outcome; the executor's observable behaviour is the
final result, the number of invocations made, and the list of back-off
delays slept (in milliseconds, in order). -/

/-- The transient-error predicate of `retryWithBackoff`:
`error.message.includes('data conflict') || error.message.includes('rate limit')`. -/
def isTransientMsg (msg : String) : Bool :=
  jsIncludes msg "data conflict" || jsIncludes msg "rate limit"

/-- Observable outcome of a `retryWithBackoff` run.  `result = none` models
the `undefined` return of the JS loop falling through (possible only when
`maxRetries = 0`). -/
structure RetryOutcome (α : Type) where
  result : Option (Except String α)
  attempts : Nat
  delays : List Nat
deriving Repr

/-- The `for (attempt = 1; attempt <= maxRetries; attempt++)` loop of
`retryWithBackoff`, entered at loop counter `attempt`. -/
def retryFrom (f : Nat → Except String α) (maxRetries baseDelay attempt : Nat) :
    RetryOutcome α :=
  if _h : attempt ≤ maxRetries then
    match f attempt with
    | .ok a => ⟨some (.ok a), 1, []⟩
    | .error e =>
      if isTransientMsg e = true ∧ attempt < maxRetries then
        let rest := retryFrom f maxRetries baseDelay (attempt + 1)
        ⟨rest.result, rest.attempts + 1, baseDelay * 2 ^ (attempt - 1) :: rest.delays⟩
      else ⟨some (.error e), 1, []⟩
  else ⟨none, 0, []⟩
termination_by maxRetries + 1 - attempt
decreasing_by omega

/-- `retryWithBackoff(fn, maxRetries = 3, baseDelay = 1000)`. -/
def retryWithBackoff (f : Nat → Except String α) (maxRetries : Nat := 3)
    (baseDelay : Nat := 1000) : RetryOutcome α :=
  retryFrom f maxRetries baseDelay 1

/-- The delays produced by `n` consecutive transient failures starting at
attempt `a`: `baseDelay * 2 ^ (a - 1)`, `baseDelay * 2 ^ a`, …. -/
def backoffDelays (baseDelay a : Nat) : Nat → List Nat
  | 0 => []
  | n + 1 => baseDelay * 2 ^ (a - 1) :: backoffDelays baseDelay (a + 1) n

lemma retryFrom_attempts_le (f : Nat → Except String α) (m b a : Nat) :
    (retryFrom f m b a).attempts ≤ m + 1 - a := by
  by_cases h : a ≤ m
  · rw [retryFrom, dif_pos h]
    match f a with
    | .ok v => simp; omega
    | .error e =>
      simp only
      split_ifs with ht
      · have ih := retryFrom_attempts_le f m b (a + 1)
        simp only
        omega
      · simp
        omega
  · rw [retryFrom, dif_neg h]
    simp
termination_by m + 1 - a
decreasing_by omega

lemma retryFrom_all_transient (f : Nat → Except String α) (m b a : Nat)
    (ha : 1 ≤ a) (h : a ≤ m)
    (htrans : ∀ k, a ≤ k → k ≤ m → ∃ e, f k = .error e ∧ isTransientMsg e = true) :
    ∃ e, f m = .error e
      ∧ retryFrom f m b a = ⟨some (.error e), m + 1 - a, backoffDelays b a (m - a)⟩ := by
  obtain ⟨e, hfe, hte⟩ := htrans a le_rfl h
  by_cases hlt : a < m
  · obtain ⟨e', hfe', hstep⟩ :=
      retryFrom_all_transient f m b (a + 1) (by omega) (by omega)
        (fun k hk1 hk2 => htrans k (by omega) hk2)
    refine ⟨e', hfe', ?_⟩
    rw [retryFrom, dif_pos h, hfe]
    simp only [if_pos (And.intro hte hlt), hstep]
    have hd : m - a = (m - (a + 1)) + 1 := by omega
    rw [hd]
    simp [backoffDelays]
    omega
  · have ham : a = m := by omega
    subst ham
    refine ⟨e, hfe, ?_⟩
    rw [retryFrom, dif_pos h, hfe]
    simp only [if_neg (by omega : ¬ (isTransientMsg e = true ∧ a < a))]
    have : a + 1 - a = 1 := by omega
    simp [this, (by omega : a - a = 0), backoffDelays]
termination_by m - a
decreasing_by omega

lemma backoffDelays_get (b : Nat) :
    ∀ (n a i : Nat), 1 ≤ a → i < n →
      (backoffDelays b a n).get? i = some (b * 2 ^ (a - 1 + i))
  | 0, _, i, _, hi => absurd hi (by omega)
  | n + 1, a, 0, _, _ => by simp [backoffDelays]
  | n + 1, a, i + 1, ha, hi => by
    simp only [backoffDelays, List.get?]
    have hrec := backoffDelays_get b n (a + 1) i (by omega) (by omega)
    rw [hrec]
    have hexp : a + 1 - 1 + i = a - 1 + (i + 1) := by omega
    rw [hexp]

lemma backoffDelays_length (b : Nat) : ∀ (n a : Nat), (backoffDelays b a n).length = n
  | 0, _ => rfl
  | n + 1, a => by simp [backoffDelays, backoffDelays_length b n (a + 1)]

/-- C4: `retryWithBackoff` invokes the wrapped operation at most
`maxRetries` times; a first-attempt failure that is not transient propagates
immediately with no further attempt and no delay; a transient failure with
attempts remaining sleeps `baseDelay * 2^(attempt-1)` and continues with the
next attempt; and when every attempt fails transiently the last error
propagates unchanged after `maxRetries` attempts with exponentially growing
delays `baseDelay * 2^i`. -/
theorem c4_retry_with_backoff (f : Nat → Except String α) (m b : Nat) (hm : 1 ≤ m) :
    (retryWithBackoff f m b).attempts ≤ m
    ∧ (∀ e, f 1 = .error e → isTransientMsg e = false →
        retryWithBackoff f m b = ⟨some (.error e), 1, []⟩)
    ∧ (∀ e, f 1 = .error e → isTransientMsg e = true → 1 < m →
        retryWithBackoff f m b =
          ⟨(retryFrom f m b 2).result, (retryFrom f m b 2).attempts + 1,
            b * 2 ^ 0 :: (retryFrom f m b 2).delays⟩)
    ∧ ((∀ k, 1 ≤ k → k ≤ m → ∃ e, f k = .error e ∧ isTransientMsg e = true) →
        ∃ e, f m = .error e
          ∧ (retryWithBackoff f m b).result = some (.error e)
          ∧ (retryWithBackoff f m b).attempts = m
          ∧ (retryWithBackoff f m b).delays.length = m - 1
          ∧ ∀ i, i < m - 1 → (retryWithBackoff f m b).delays.get? i = some (b * 2 ^ i)) := by
  refine ⟨?_, ?_, ?_, ?_⟩
  · have := retryFrom_attempts_le f m b 1
    simpa [retryWithBackoff] using this
  · intro e hfe hnt
    rw [retryWithBackoff, retryFrom, dif_pos hm, hfe]
    simp [hnt]
  · intro e hfe ht hlt
    rw [retryWithBackoff, retryFrom, dif_pos hm, hfe]
    simp [ht, hlt]
  · intro htrans
    obtain ⟨e, hfe, hrun⟩ := retryFrom_all_transient f m b 1 le_rfl hm htrans
    refine ⟨e, hfe, ?_, ?_, ?_, ?_⟩
    · rw [retryWithBackoff, hrun]
    · rw [retryWithBackoff, hrun]
      simp
    · rw [retryWithBackoff, hrun]
      simp [backoffDelays_length]
    · intro i hi
      rw [retryWithBackoff, hrun]
      have := backoffDelays_get b (m - 1) 1 i le_rfl (by omega)
      simpa using this

/-- C4 witness: three attempts at a rate-limited operation exhaust
`maxRetries = 3` with delays 1000 ms and 2000 ms. -/
theorem c4_retry_with_backoff_witness :
    ∃ e, (fun _ => (.error "rate limit" : Except String Unit)) 3 = .error e
      ∧ (retryWithBackoff (fun _ => (.error "rate limit" : Except String Unit)) 3 1000).result
          = some (.error e)
      ∧ (retryWithBackoff (fun _ => (.error "rate limit" : Except String Unit)) 3 1000).attempts
          = 3
      ∧ (retryWithBackoff (fun _ => (.error "rate limit" : Except String Unit)) 3 1000).delays.length
          = 3 - 1
      ∧ ∀ i, i < 3 - 1 →
          (retryWithBackoff (fun _ => (.error "rate limit" : Except String Unit)) 3 1000).delays.get? i
            = some (1000 * 2 ^ i) :=
  (c4_retry_with_backoff (fun _ => (.error "rate limit" : Except String Unit)) 3 1000
    (by decide)).2.2.2
    (fun k _ _ => ⟨"rate limit", rfl, by decide⟩)

/-! ### The per-vault migration loop (`migrateVault`)

The surrounding I/O is modelled by an environment: the source item count
(`getVaultItemCount` never throws, see C10), the `op vault create` outcome,
the `listVaultItems` outcome, and a per-index outcome for the body of the
item loop (the body — custom-item CLI bridge or transcode-and-create — ends
either in success or in a caught error with a message).  The cancellation
flag is a function of how many items have been processed, modelling reads
of the shared mutable `isMigrationCancelled` over time. -/

structure MigItem where
  id : String
  title : String
deriving DecidableEq, Repr

/-- One entry of `migrationResults`. -/
structure ItemResult where
  id : String
  title : String
  success : Bool
  error : Option String
  progress : Rat
deriving DecidableEq, Repr

/-- The loop-local state returned by the `for (const item of items)` loop:
whether it returned early on cancellation, the pushed results, and the
`processedItems` / `successCount` / `failureCount` counters. -/
structure LoopOut where
  cancelledEarly : Bool
  results : List ItemResult
  processed : Nat
  successCount : Nat
  failureCount : Nat
deriving DecidableEq, Repr

/-- The item loop of `migrateVault`: check the cancellation flag, run the
body, push a success or failure result, bump the counters, continue. -/
def migLoop (c : Nat → Bool) (oc : Nat → Option String) (total : Nat) :
    List MigItem → Nat → Nat → Nat → LoopOut
  | [], p, sc, fc => ⟨false, [], p, sc, fc⟩
  | it :: rest, p, sc, fc =>
    if c p then ⟨true, [], p, sc, fc⟩
    else
      match oc p with
      | none =>
        let out := migLoop c oc total rest (p + 1) (sc + 1) fc
        { out with
          results := ⟨it.id, it.title, true, none,
            ((p : Rat) + 1) / (total : Rat) * 100⟩ :: out.results }
      | some e =>
        let out := migLoop c oc total rest (p + 1) sc (fc + 1)
        { out with
          results := ⟨it.id, it.title, false, some e,
            ((p : Rat) + 1) / (total : Rat) * 100⟩ :: out.results }

/-- The value returned by `migrateVault` together with the final
`logEntry.status`. -/
structure VaultOutcome where
  status : String
  itemsLength : Nat
  migrationResults : List ItemResult
  sourceItemCount : Nat
  destItemCount : Option Nat
  successCount : Nat
  failureCount : Nat
deriving DecidableEq, Repr

/-- Environment of one `migrateVault` call. -/
structure MigEnv where
  sourceItemCount : Nat
  vaultCreate : Except String String
  listItems : Except String (List MigItem)
  itemOutcome : Nat → Option String
  cancelled : Nat → Bool
  destCount : Nat

/-- `migrateVault`: count source items, create the destination vault
(wrapping a failure as `Vault creation failed`), list the source items
(failure wrapped as `Item listing failed`), run the item loop — returning
early with `destItemCount: null` and status `cancelled` when the flag was
observed — then re-count the destination and finish as `completed`. -/
def migrateVault (env : MigEnv) : Except String VaultOutcome :=
  match env.vaultCreate with
  | .error e => .error ("Vault creation failed: " ++ e)
  | .ok _newVaultId =>
    match env.listItems with
    | .error e => .error ("Item listing failed: " ++ e)
    | .ok items =>
      let out := migLoop env.cancelled env.itemOutcome items.length items 0 0 0
      if out.cancelledEarly then
        .ok { status := "cancelled", itemsLength := items.length
              migrationResults := out.results, sourceItemCount := env.sourceItemCount
              destItemCount := none, successCount := out.successCount
              failureCount := out.failureCount }
      else
        .ok { status := "completed", itemsLength := items.length
              migrationResults := out.results, sourceItemCount := env.sourceItemCount
              destItemCount := some env.destCount, successCount := out.successCount
              failureCount := out.failureCount }

/-! #### Characterization of the loop -/

/-- The result pushed for the item at processed-count `p`. -/
def itemResultFor (oc : Nat → Option String) (total : Nat) (it : MigItem) (p : Nat) :
    ItemResult :=
  match oc p with
  | none => ⟨it.id, it.title, true, none, ((p : Rat) + 1) / (total : Rat) * 100⟩
  | some e => ⟨it.id, it.title, false, some e, ((p : Rat) + 1) / (total : Rat) * 100⟩

def listResultsFor (oc : Nat → Option String) (total : Nat) :
    List MigItem → Nat → List ItemResult
  | [], _ => []
  | it :: rest, p => itemResultFor oc total it p :: listResultsFor oc total rest (p + 1)

def countSuccesses (oc : Nat → Option String) : List MigItem → Nat → Nat
  | [], _ => 0
  | _ :: rest, p => (if (oc p).isNone then 1 else 0) + countSuccesses oc rest (p + 1)

def countFailures (oc : Nat → Option String) : List MigItem → Nat → Nat
  | [], _ => 0
  | _ :: rest, p => (if (oc p).isSome then 1 else 0) + countFailures oc rest (p + 1)

lemma countSuccesses_add_countFailures (oc : Nat → Option String) :
    ∀ (items : List MigItem) (p : Nat),
      countSuccesses oc items p + countFailures oc items p = items.length
  | [], _ => rfl
  | _ :: rest, p => by
    have ih := countSuccesses_add_countFailures oc rest (p + 1)
    cases h : oc p <;> simp [countSuccesses, countFailures, h] <;> omega

lemma listResultsFor_length (oc : Nat → Option String) (total : Nat) :
    ∀ (items : List MigItem) (p : Nat),
      (listResultsFor oc total items p).length = items.length
  | [], _ => rfl
  | _ :: rest, p => by
    simp [listResultsFor, listResultsFor_length oc total rest (p + 1)]

lemma listResultsFor_get? (oc : Nat → Option String) (total : Nat) :
    ∀ (items : List MigItem) (p j : Nat) (it : MigItem),
      items.get? j = some it →
      (listResultsFor oc total items p).get? j = some (itemResultFor oc total it (p + j))
  | [], _, j, it, h => by simp at h
  | x :: rest, p, 0, it, h => by
    simp at h
    subst h
    simp [listResultsFor]
  | x :: rest, p, j + 1, it, h => by
    simp only [List.get?] at h
    have ih := listResultsFor_get? oc total rest (p + 1) j it h
    simp only [listResultsFor, List.get?]
    rw [ih]
    congr 2
    omega

lemma listResultsFor_congr (total : Nat) {oc oc' : Nat → Option String} :
    ∀ (items : List MigItem) (p : Nat),
      (∀ i, i < items.length → oc' (p + i) = oc (p + i)) →
      listResultsFor oc' total items p = listResultsFor oc total items p
  | [], _, _ => rfl
  | it :: rest, p, h => by
    have h0 : oc' p = oc p := by simpa using h 0 (by simp)
    have ih := listResultsFor_congr total rest (p + 1)
      (fun i hi => by
        have := h (i + 1) (by simp; omega)
        simpa [Nat.add_assoc, Nat.add_comm 1 i] using this)
    simp [listResultsFor, itemResultFor, h0, ih]

lemma countSuccesses_congr {oc oc' : Nat → Option String} :
    ∀ (items : List MigItem) (p : Nat),
      (∀ i, i < items.length → oc' (p + i) = oc (p + i)) →
      countSuccesses oc' items p = countSuccesses oc items p
  | [], _, _ => rfl
  | it :: rest, p, h => by
    have h0 : oc' p = oc p := by simpa using h 0 (by simp)
    have ih := countSuccesses_congr rest (p + 1)
      (fun i hi => by
        have := h (i + 1) (by simp; omega)
        simpa [Nat.add_assoc, Nat.add_comm 1 i] using this)
    simp [countSuccesses, h0, ih]

lemma countFailures_congr {oc oc' : Nat → Option String} :
    ∀ (items : List MigItem) (p : Nat),
      (∀ i, i < items.length → oc' (p + i) = oc (p + i)) →
      countFailures oc' items p = countFailures oc items p
  | [], _, _ => rfl
  | it :: rest, p, h => by
    have h0 : oc' p = oc p := by simpa using h 0 (by simp)
    have ih := countFailures_congr rest (p + 1)
      (fun i hi => by
        have := h (i + 1) (by simp; omega)
        simpa [Nat.add_assoc, Nat.add_comm 1 i] using this)
    simp [countFailures, h0, ih]

/-- With the cancellation flag never set, the loop processes every item. -/
lemma migLoop_noCancel (c : Nat → Bool) (oc : Nat → Option String) (total : Nat)
    (hc : ∀ j, c j = false) :
    ∀ (items : List MigItem) (p sc fc : Nat),
      migLoop c oc total items p sc fc =
        ⟨false, listResultsFor oc total items p, p + items.length,
          sc + countSuccesses oc items p, fc + countFailures oc items p⟩
  | [], p, sc, fc => by simp [migLoop, listResultsFor, countSuccesses, countFailures]
  | it :: rest, p, sc, fc => by
    rw [migLoop]
    rw [hc p]
    cases h : oc p with
    | none =>
      have ih := migLoop_noCancel c oc total hc rest (p + 1) (sc + 1) fc
      simp only [ih, if_false, Bool.false_eq_true]
      simp [listResultsFor, countSuccesses, countFailures, itemResultFor, h]
      omega
    | some e =>
      have ih := migLoop_noCancel c oc total hc rest (p + 1) sc (fc + 1)
      simp only [ih, if_false, Bool.false_eq_true]
      simp [listResultsFor, countSuccesses, countFailures, itemResultFor, h]
      omega

/-- With the flag first observed true after `k` items, the loop returns
early having processed exactly the first `k` items. -/
lemma migLoop_cancelAt (c : Nat → Bool) (oc : Nat → Option String) (total : Nat) :
    ∀ (k : Nat) (items : List MigItem) (p sc fc : Nat),
      k < items.length →
      (∀ i, i < k → c (p + i) = false) → c (p + k) = true →
      migLoop c oc total items p sc fc =
        ⟨true, listResultsFor oc total (items.take k) p, p + k,
          sc + countSuccesses oc (items.take k) p,
          fc + countFailures oc (items.take k) p⟩
  | 0, items, p, sc, fc, hk, _, hat => by
    match items with
    | [] => simp at hk
    | it :: rest =>
      rw [migLoop]
      have : c p = true := by simpa using hat
      simp [this, listResultsFor, countSuccesses, countFailures]
  | k + 1, items, p, sc, fc, hk, hbefore, hat => by
    match items with
    | [] => simp at hk
    | it :: rest =>
      rw [migLoop]
      have hp : c p = false := by simpa using hbefore 0 (by omega)
      rw [hp]
      have hb' : ∀ i, i < k → c (p + 1 + i) = false := fun i hi => by
        have := hbefore (i + 1) (by omega)
        simpa [Nat.add_assoc, Nat.add_comm 1 i] using this
      have ha' : c (p + 1 + k) = true := by
        have := hat
        simpa [Nat.add_assoc, Nat.add_comm 1 k] using this
      have hk' : k < rest.length := by simpa using hk
      cases h : oc p with
      | none =>
        have ih := migLoop_cancelAt c oc total k rest (p + 1) (sc + 1) fc hk' hb' ha'
        simp only [ih, if_false, Bool.false_eq_true]
        simp [listResultsFor, countSuccesses, countFailures, itemResultFor, h]
        omega
      | some e =>
        have ih := migLoop_cancelAt c oc total k rest (p + 1) sc (fc + 1) hk' hb' ha'
        simp only [ih, if_false, Bool.false_eq_true]
        simp [listResultsFor, countSuccesses, countFailures, itemResultFor, h]
        omega

/-! ### The progress-reporting variant (`migrateVaultWithProgress`)

Identical to `migrateVault` except that after each processed item it calls
`onProgress(processedItems, totalItems, successCount, failureCount)` when
`processedItems % 3 === 0` or the item was the last one.  The emitted calls
are collected in order. -/

structure ProgressEvent where
  itemsProcessed : Nat
  totalItems : Nat
  successCount : Nat
  failureCount : Nat
deriving DecidableEq, Repr

structure LoopOutP where
  cancelledEarly : Bool
  results : List ItemResult
  processed : Nat
  successCount : Nat
  failureCount : Nat
  events : List ProgressEvent
deriving DecidableEq, Repr

/-- The item loop of `migrateVaultWithProgress`. -/
def migLoopP (c : Nat → Bool) (oc : Nat → Option String) (total : Nat) :
    List MigItem → Nat → Nat → Nat → LoopOutP
  | [], p, sc, fc => ⟨false, [], p, sc, fc, []⟩
  | it :: rest, p, sc, fc =>
    if c p then ⟨true, [], p, sc, fc, []⟩
    else
      match oc p with
      | none =>
        let out := migLoopP c oc total rest (p + 1) (sc + 1) fc
        { out with
          results := ⟨it.id, it.title, true, none,
            ((p : Rat) + 1) / (total : Rat) * 100⟩ :: out.results
          events := if (p + 1) % 3 = 0 ∨ p + 1 = total
                    then ⟨p + 1, total, sc + 1, fc⟩ :: out.events
                    else out.events }
      | some e =>
        let out := migLoopP c oc total rest (p + 1) sc (fc + 1)
        { out with
          results := ⟨it.id, it.title, false, some e,
            ((p : Rat) + 1) / (total : Rat) * 100⟩ :: out.results
          events := if (p + 1) % 3 = 0 ∨ p + 1 = total
                    then ⟨p + 1, total, sc, fc + 1⟩ :: out.events
                    else out.events }

/-- Forget the emitted events. -/
def LoopOutP.core (o : LoopOutP) : LoopOut :=
  ⟨o.cancelledEarly, o.results, o.processed, o.successCount, o.failureCount⟩

/-- `migrateVaultWithProgress`: same prologue, loop and epilogue as
`migrateVault`, returning in addition the emitted progress events. -/
def migrateVaultWithProgress (env : MigEnv) :
    Except String VaultOutcome × List ProgressEvent :=
  match env.vaultCreate with
  | .error e => (.error ("Vault creation failed: " ++ e), [])
  | .ok _newVaultId =>
    match env.listItems with
    | .error e => (.error ("Item listing failed: " ++ e), [])
    | .ok items =>
      let out := migLoopP env.cancelled env.itemOutcome items.length items 0 0 0
      if out.cancelledEarly then
        (.ok { status := "cancelled", itemsLength := items.length
               migrationResults := out.results, sourceItemCount := env.sourceItemCount
               destItemCount := none, successCount := out.successCount
               failureCount := out.failureCount }, out.events)
      else
        (.ok { status := "completed", itemsLength := items.length
               migrationResults := out.results, sourceItemCount := env.sourceItemCount
               destItemCount := some env.destCount, successCount := out.successCount
               failureCount := out.failureCount }, out.events)

lemma migLoopP_core (c : Nat → Bool) (oc : Nat → Option String) (total : Nat) :
    ∀ (items : List MigItem) (p sc fc : Nat),
      (migLoopP c oc total items p sc fc).core = migLoop c oc total items p sc fc
  | [], p, sc, fc => rfl
  | it :: rest, p, sc, fc => by
    rw [migLoopP, migLoop]
    by_cases hcp : c p = true
    · simp [hcp, LoopOutP.core]
    · rw [Bool.not_eq_true] at hcp
      rw [hcp]
      cases h : oc p with
      | none =>
        have ih := migLoopP_core c oc total rest (p + 1) (sc + 1) fc
        simp only [if_false, Bool.false_eq_true]
        rw [← ih]
        split_ifs <;> rfl
      | some e =>
        have ih := migLoopP_core c oc total rest (p + 1) sc (fc + 1)
        simp only [if_false, Bool.false_eq_true]
        rw [← ih]
        split_ifs <;> rfl

/-- The events invariant: every emitted progress call carries counts with
`successCount + failureCount = itemsProcessed`. -/
lemma migLoopP_events_inv (c : Nat → Bool) (oc : Nat → Option String) (total : Nat) :
    ∀ (items : List MigItem) (p sc fc : Nat), sc + fc = p →
      ∀ ev ∈ (migLoopP c oc total items p sc fc).events,
        ev.successCount + ev.failureCount = ev.itemsProcessed
  | [], p, sc, fc, _, ev, hev => by simp [migLoopP] at hev
  | it :: rest, p, sc, fc, hinv, ev, hev => by
    rw [migLoopP] at hev
    by_cases hcp : c p = true
    · simp [hcp] at hev
    · rw [Bool.not_eq_true] at hcp
      rw [hcp] at hev
      simp only [if_false, Bool.false_eq_true] at hev
      cases h : oc p with
      | none =>
        rw [h] at hev
        have ih := migLoopP_events_inv c oc total rest (p + 1) (sc + 1) fc (by omega)
        simp only at hev
        split_ifs at hev with hemit
        · rcases List.mem_cons.mp hev with rfl | hmem
          · simp
            omega
          · exact ih ev hmem
        · exact ih ev hev
      | some e =>
        rw [h] at hev
        have ih := migLoopP_events_inv c oc total rest (p + 1) sc (fc + 1) (by omega)
        simp only at hev
        split_ifs at hev with hemit
        · rcases List.mem_cons.mp hev with rfl | hmem
          · simp
            omega
          · exact ih ev hmem
        · exact ih ev hev

/-! ### The multi-vault driver (`/migration/migrate-all-vaults`)

Before each vault the shared cancellation flag is read; once observed true
the loop stops and no further vault is started.  Per-vault failures are
caught and recorded, so each started vault contributes exactly one entry. -/

def migrateAllVaults (cs : Nat → Bool) :
    List MigEnv → Nat → Bool × List (Except String VaultOutcome)
  | [], _ => (false, [])
  | env :: rest, j =>
    if cs j then (true, [])
    else
      let r := (migrateVaultWithProgress env).1
      let out := migrateAllVaults cs rest (j + 1)
      (out.1, r :: out.2)

lemma migrateAllVaults_cancelAt (cs : Nat → Bool) :
    ∀ (k : Nat) (envs : List MigEnv) (j : Nat),
      k < envs.length →
      (∀ i, i < k → cs (j + i) = false) → cs (j + k) = true →
      migrateAllVaults cs envs j =
        (true, (envs.take k).map (fun e => (migrateVaultWithProgress e).1))
  | 0, envs, j, hk, _, hat => by
    match envs with
    | [] => simp at hk
    | env :: rest =>
      rw [migrateAllVaults]
      have : cs j = true := by simpa using hat
      simp [this]
  | k + 1, envs, j, hk, hbefore, hat => by
    match envs with
    | [] => simp at hk
    | env :: rest =>
      rw [migrateAllVaults]
      have hj : cs j = false := by simpa using hbefore 0 (by omega)
      rw [hj]
      have hb' : ∀ i, i < k → cs (j + 1 + i) = false := fun i hi => by
        have := hbefore (i + 1) (by omega)
        simpa [Nat.add_assoc, Nat.add_comm 1 i] using this
      have ha' : cs (j + 1 + k) = true := by
        have := hat
        simpa [Nat.add_assoc, Nat.add_comm 1 k] using this
      have hk' : k < rest.length := by simpa using hk
      have ih := migrateAllVaults_cancelAt cs k rest (j + 1) hk' hb' ha'
      simp only [if_false, Bool.false_eq_true, ih]
      simp

/-- The accept/reject decision of the `/migration/migrate-vault` endpoint:
`failureCount > 0 || sourceItemCount !== destItemCount` selects the
completed-with-failures response, otherwise the fully-successful one. -/
def reportVaultSuccess (r : VaultOutcome) : Bool :=
  if 0 < r.failureCount ∨ r.destItemCount ≠ some r.sourceItemCount then false else true

/-- Convenient closed form of a completed (non-cancelled) run. -/
lemma migrateVault_noCancel (env : MigEnv) (vid : String) (items : List MigItem)
    (hv : env.vaultCreate = .ok vid) (hl : env.listItems = .ok items)
    (hc : ∀ j, env.cancelled j = false) :
    migrateVault env = .ok
      { status := "completed", itemsLength := items.length
        migrationResults := listResultsFor env.itemOutcome items.length items 0
        sourceItemCount := env.sourceItemCount, destItemCount := some env.destCount
        successCount := 0 + countSuccesses env.itemOutcome items 0
        failureCount := 0 + countFailures env.itemOutcome items 0 } := by
  have hloop := migLoop_noCancel env.cancelled env.itemOutcome items.length hc items 0 0 0
  rw [migrateVault, hv, hl]
  simp only [hloop]
  simp

/-- Closed form of a run cancelled after `k` items. -/
lemma migrateVault_cancelAt (env : MigEnv) (vid : String) (items : List MigItem) (k : Nat)
    (hv : env.vaultCreate = .ok vid) (hl : env.listItems = .ok items)
    (hk : k < items.length)
    (hbefore : ∀ i, i < k → env.cancelled i = false) (hat : env.cancelled k = true) :
    migrateVault env = .ok
      { status := "cancelled", itemsLength := items.length
        migrationResults := listResultsFor env.itemOutcome items.length (items.take k) 0
        sourceItemCount := env.sourceItemCount, destItemCount := none
        successCount := 0 + countSuccesses env.itemOutcome (items.take k) 0
        failureCount := 0 + countFailures env.itemOutcome (items.take k) 0 } := by
  have hb0 : ∀ i, i < k → env.cancelled (0 + i) = false := fun i hi => by
    simpa using hbefore i hi
  have ha0 : env.cancelled (0 + k) = true := by simpa using hat
  have hloop :=
    migLoop_cancelAt env.cancelled env.itemOutcome items.length k items 0 0 0 hk hb0 ha0
  rw [migrateVault, hv, hl]
  simp only [hloop]
  simp

/-- C5: with the cancellation flag observed false before each of the first
`k` items and true before item `k+1` (`k < n`), per-vault migration returns
exactly `k` per-item results with status `cancelled`, `destItemCount` null,
and the outcome is independent of what processing items `k+1 … n` would
have produced; and in a multi-vault run the driver stops at the first
vault whose pre-check observes the flag, starting no further vault. -/
theorem c5_cancellation (env : MigEnv) (vid : String) (items : List MigItem) (n k : Nat)
    (hv : env.vaultCreate = .ok vid) (hl : env.listItems = .ok items)
    (hn : items.length = n) (hk : k < n)
    (hbefore : ∀ i, i < k → env.cancelled i = false) (hat : env.cancelled k = true) :
    (∃ r, migrateVault env = .ok r ∧ r.status = "cancelled"
      ∧ r.migrationResults.length = k ∧ r.destItemCount = none
      ∧ (∀ oc' : Nat → Option String, (∀ i, i < k → oc' i = env.itemOutcome i) →
          migrateVault { env with itemOutcome := oc' } = migrateVault env))
    ∧ (∀ (envs : List MigEnv) (cs : Nat → Bool) (kv : Nat),
        kv < envs.length → (∀ j, j < kv → cs j = false) → cs kv = true →
        (migrateAllVaults cs envs 0).1 = true
        ∧ (migrateAllVaults cs envs 0).2.length = kv) := by
  subst hn
  have htake : (items.take k).length = k := by
    simp [List.length_take]
    omega
  have hrun := migrateVault_cancelAt env vid items k hv hl hk hbefore hat
  constructor
  · refine ⟨_, hrun, rfl, ?_, rfl, ?_⟩
    · simp [listResultsFor_length, htake]
    · intro oc' hagree
      have hagree' : ∀ i, i < (items.take k).length → oc' (0 + i) = env.itemOutcome (0 + i) := by
        intro i hi
        rw [htake] at hi
        simpa using hagree i hi
      have hrun' := migrateVault_cancelAt { env with itemOutcome := oc' } vid items k
        hv hl hk hbefore hat
      rw [hrun', hrun]
      simp only
      rw [listResultsFor_congr items.length (items.take k) 0 hagree',
        countSuccesses_congr (items.take k) 0 hagree',
        countFailures_congr (items.take k) 0 hagree']
  · intro envs cs kv hkv hb ha
    have hall := migrateAllVaults_cancelAt cs kv envs 0 hkv
      (fun i hi => by simpa using hb i hi) (by simpa using ha)
    rw [hall]
    constructor
    · rfl
    · simp [List.length_take]
      omega

/-- Environment of a ten-item vault whose cancellation flag flips to true
once four items have been processed; every item body succeeds. -/
def envTen : MigEnv :=
  { sourceItemCount := 10, vaultCreate := .ok "newvault"
    listItems := .ok (List.replicate 10 ⟨"i", "t"⟩)
    itemOutcome := fun _ => none
    cancelled := fun i => decide (4 ≤ i), destCount := 0 }

/-- C5 witness: cancellation after item 4 of a 10-item vault. -/
theorem c5_cancellation_witness :
    (∃ r, migrateVault envTen = .ok r ∧ r.status = "cancelled"
      ∧ r.migrationResults.length = 4 ∧ r.destItemCount = none
      ∧ (∀ oc' : Nat → Option String, (∀ i, i < 4 → oc' i = envTen.itemOutcome i) →
          migrateVault { envTen with itemOutcome := oc' } = migrateVault envTen))
    ∧ (∀ (envs : List MigEnv) (cs : Nat → Bool) (kv : Nat),
        kv < envs.length → (∀ j, j < kv → cs j = false) → cs kv = true →
        (migrateAllVaults cs envs 0).1 = true
        ∧ (migrateAllVaults cs envs 0).2.length = kv) :=
  c5_cancellation envTen "newvault" (List.replicate 10 ⟨"i", "t"⟩) 10 4 rfl rfl rfl
    (by omega) (fun i hi => decide_eq_false (by omega)) (by decide)

/-- C6: every progress checkpoint emitted by the streaming variant carries
`successCount + failureCount = itemsProcessed`; an item-level failure is
recorded with its error message while the vault continues to completion
(all items get a result and the counters add up to the item count); and
changing the outcome of one item leaves every other item's recorded result
unchanged. -/
theorem c6_failure_isolation :
    (∀ env : MigEnv, ∀ ev ∈ (migrateVaultWithProgress env).2,
        ev.successCount + ev.failureCount = ev.itemsProcessed)
    ∧ (∀ (env : MigEnv) (vid : String) (items : List MigItem) (i : Nat) (it : MigItem)
        (m : String), env.vaultCreate = .ok vid → env.listItems = .ok items →
        (∀ j, env.cancelled j = false) → env.itemOutcome i = some m →
        items.get? i = some it →
        ∃ r, migrateVault env = .ok r
          ∧ r.migrationResults.get? i
              = some ⟨it.id, it.title, false, some m,
                  ((i : Rat) + 1) / (items.length : Rat) * 100⟩
          ∧ r.migrationResults.length = items.length
          ∧ r.successCount + r.failureCount = items.length)
    ∧ (∀ (env : MigEnv) (oc' : Nat → Option String) (i : Nat) (vid : String)
        (items : List MigItem), env.vaultCreate = .ok vid → env.listItems = .ok items →
        (∀ j, env.cancelled j = false) → (∀ j, j ≠ i → oc' j = env.itemOutcome j) →
        ∃ r r', migrateVault env = .ok r
          ∧ migrateVault { env with itemOutcome := oc' } = .ok r'
          ∧ ∀ j, j ≠ i → r.migrationResults.get? j = r'.migrationResults.get? j) := by
  refine ⟨?_, ?_, ?_⟩
  · intro env ev hev
    rw [migrateVaultWithProgress] at hev
    cases hvc : env.vaultCreate with
    | error e =>
      rw [hvc] at hev
      simp at hev
    | ok vid =>
      rw [hvc] at hev
      cases hli : env.listItems with
      | error e =>
        rw [hli] at hev
        simp at hev
      | ok items =>
        rw [hli] at hev
        simp only at hev
        have hinv := migLoopP_events_inv env.cancelled env.itemOutcome items.length
          items 0 0 0 rfl ev
        split_ifs at hev <;> exact hinv hev
  · intro env vid items i it m hv hl hc hoc hgit
    have hrun := migrateVault_noCancel env vid items hv hl hc
    refine ⟨_, hrun, ?_, ?_, ?_⟩
    · have hg := listResultsFor_get? env.itemOutcome items.length items 0 i it hgit
      simp only at hg
      rw [hg]
      simp [itemResultFor, hoc]
    · simp [listResultsFor_length]
    · simp only
      have := countSuccesses_add_countFailures env.itemOutcome items 0
      omega
  · intro env oc' i vid items hv hl hc hagree
    have hrun := migrateVault_noCancel env vid items hv hl hc
    have hrun' := migrateVault_noCancel { env with itemOutcome := oc' } vid items hv hl hc
    refine ⟨_, _, hrun, hrun', ?_⟩
    intro j hji
    simp only
    by_cases hjlen : j < items.length
    · have hit : items.get? j = some (items.get ⟨j, hjlen⟩) := List.get?_eq_get hjlen
      rw [listResultsFor_get? env.itemOutcome items.length items 0 j _ hit,
        listResultsFor_get? oc' items.length items 0 j _ hit]
      simp [itemResultFor, hagree j hji]
    · rw [List.get?_eq_none.mpr, List.get?_eq_none.mpr]
      · rw [listResultsFor_length]
        omega
      · rw [listResultsFor_length]
        omega

/-- Environment of a three-item vault whose second item fails with message
`"boom"`. -/
def envBoom : MigEnv :=
  { sourceItemCount := 3, vaultCreate := .ok "newvault"
    listItems := .ok (List.replicate 3 ⟨"i", "t"⟩)
    itemOutcome := fun j => if j = 1 then some "boom" else none
    cancelled := fun _ => false, destCount := 2 }

/-- C6 witness: the failing second item is recorded and the vault still
processes all three items. -/
theorem c6_failure_isolation_witness :
    ∃ r, migrateVault envBoom = .ok r
      ∧ r.migrationResults.get? 1
          = some ⟨"i", "t", false, some "boom", ((1 : Rat) + 1) / ((3 : Nat) : Rat) * 100⟩
      ∧ r.migrationResults.length = 3
      ∧ r.successCount + r.failureCount = 3 := by
  have h := c6_failure_isolation.2.1 envBoom "newvault" (List.replicate 3 ⟨"i", "t"⟩)
    1 ⟨"i", "t"⟩ "boom" rfl rfl (fun _ => rfl) rfl rfl
  simpa using h

lemma reportVaultSuccess_iff (r : VaultOutcome) :
    reportVaultSuccess r = true ↔
      (r.failureCount = 0 ∧ r.destItemCount = some r.sourceItemCount) := by
  rw [reportVaultSuccess]
  split_ifs with h
  · simp only [Bool.false_eq_true, false_iff]
    intro hcon
    rcases h with hfc | hne
    · omega
    · exact hne hcon.2
  · push_neg at h
    constructor
    · intro _
      exact ⟨by omega, h.2⟩
    · intro _
      rfl

/-- C7: a non-cancelled vault run re-counts the destination items, reports
status `completed`, and the endpoint reports it fully successful if and
only if `failureCount = 0` and the source and destination item counts
agree. -/
theorem c7_reconciliation (env : MigEnv) (vid : String) (items : List MigItem)
    (hv : env.vaultCreate = .ok vid) (hl : env.listItems = .ok items)
    (hc : ∀ j, env.cancelled j = false) :
    ∃ r, migrateVault env = .ok r
      ∧ r.status = "completed"
      ∧ r.destItemCount = some env.destCount
      ∧ r.sourceItemCount = env.sourceItemCount
      ∧ r.successCount = countSuccesses env.itemOutcome items 0
      ∧ r.failureCount = countFailures env.itemOutcome items 0
      ∧ (reportVaultSuccess r = true ↔
          (r.failureCount = 0 ∧ r.destItemCount = some r.sourceItemCount)) := by
  have hrun := migrateVault_noCancel env vid items hv hl hc
  exact ⟨_, hrun, rfl, rfl, rfl, by simp, by simp, reportVaultSuccess_iff _⟩

/-- Environment of a five-item vault where every creation succeeds and the
destination re-count also finds five items. -/
def envFive : MigEnv :=
  { sourceItemCount := 5, vaultCreate := .ok "newvault"
    listItems := .ok (List.replicate 5 ⟨"i", "t"⟩)
    itemOutcome := fun _ => none
    cancelled := fun _ => false, destCount := 5 }

/-- C7 witness: 5 source items, 5 successful creations, re-counted 5
destination items, reported fully successful. -/
theorem c7_reconciliation_witness :
    (∃ r, migrateVault envFive = .ok r
      ∧ r.status = "completed"
      ∧ r.destItemCount = some envFive.destCount
      ∧ r.sourceItemCount = envFive.sourceItemCount
      ∧ r.successCount = countSuccesses envFive.itemOutcome (List.replicate 5 ⟨"i", "t"⟩) 0
      ∧ r.failureCount = countFailures envFive.itemOutcome (List.replicate 5 ⟨"i", "t"⟩) 0
      ∧ (reportVaultSuccess r = true ↔
          (r.failureCount = 0 ∧ r.destItemCount = some r.sourceItemCount)))
    ∧ countSuccesses envFive.itemOutcome (List.replicate 5 ⟨"i", "t"⟩) 0 = 5
    ∧ countFailures envFive.itemOutcome (List.replicate 5 ⟨"i", "t"⟩) 0 = 0
    ∧ envFive.sourceItemCount = 5 ∧ envFive.destCount = 5 :=
  ⟨c7_reconciliation envFive "newvault" (List.replicate 5 ⟨"i", "t"⟩) rfl rfl (fun _ => rfl),
    by decide, by decide, rfl, rfl⟩

/-- C9: on every input the single-vault migration procedure and the
progress-callback variant return the same result — same per-item results,
counts and status — the latter differing only in the progress events it
additionally emits. -/
theorem c9_unified_pipeline (env : MigEnv) :
    (migrateVaultWithProgress env).1 = migrateVault env := by
  rw [migrateVaultWithProgress, migrateVault]
  cases hvc : env.vaultCreate with
  | error e => rfl
  | ok vid =>
    cases hli : env.listItems with
    | error e => rfl
    | ok items =>
      have hcore := migLoopP_core env.cancelled env.itemOutcome items.length items 0 0 0
      have hcanc := congrArg LoopOut.cancelledEarly hcore
      have hres := congrArg LoopOut.results hcore
      have hsc := congrArg LoopOut.successCount hcore
      have hfc := congrArg LoopOut.failureCount hcore
      simp only [LoopOutP.core] at hcanc hres hsc hfc
      simp only [hcanc, hres, hsc, hfc]
      split_ifs <;> rfl

/-! ### The custom-item CLI bridge (`createCustomItemViaCLI`)

The CLI invocations are oracles: the `op item get` fetch from the source,
the `op item template list` against the destination, and the final
`op item create`.  The template-resolution logic, including the message of
the error thrown when no custom template can be found and its re-wrapping
by the surrounding `catch`, is embedded verbatim. -/

structure OpTemplate where
  name : String
  category : String
  uuid : String
deriving DecidableEq, Repr

structure CliEnv where
  sourceItemFetch : Except String Unit
  templateList : Except String (List OpTemplate)
  createResult : Except String Unit

/-- JS `customTemplateId && customTemplateId.trim() !== ''`. -/
def templateProvided : Option String → Bool
  | none => false
  | some s => !(s == "") && !(jsTrim s == "")

/-- The message finally thrown when no CUSTOM template exists in the
destination: the inner `throw new Error("No CUSTOM template found …")` is
caught and wrapped as `Failed to get CUSTOM template: …. Please provide a
Custom Template UUID in the connection form.` -/
def noTemplateMsg : String :=
  "Failed to get CUSTOM template: No CUSTOM template found in destination account. Please provide a Custom Template UUID in the connection form or ensure custom templates are enabled.. Please provide a Custom Template UUID in the connection form."

/-- Steps 3 of the bridge: use the operator-supplied template id when
non-blank, otherwise auto-detect by listing templates in the destination
and finding the one named `Custom` or categorized `CUSTOM`; wrap every
failure of the auto-detection with the instruction to provide a UUID. -/
def resolveCustomTemplateId (cid : Option String) (tl : Except String (List OpTemplate)) :
    Except String String :=
  if templateProvided cid then .ok (jsTrim (cid.getD ""))
  else
    match tl with
    | .error e =>
      .error ("Failed to get CUSTOM template: " ++ e
        ++ ". Please provide a Custom Template UUID in the connection form.")
    | .ok ts =>
      match ts.find? (fun t => t.name == "Custom" || t.category == "CUSTOM") with
      | some t => .ok t.uuid
      | none => .error noTemplateMsg

/-- `createCustomItemViaCLI`: fetch the raw source item, resolve the
destination template id, then create the item (field stripping and vault
rebinding act only on the payload of that final call). -/
def createCustomItemViaCLI (cid : Option String) (cenv : CliEnv) : Except String Unit :=
  match cenv.sourceItemFetch with
  | .error e => .error e
  | .ok _ =>
    match resolveCustomTemplateId cid cenv.templateList with
    | .error e => .error e
    | .ok _tid => cenv.createResult

/-- C8: when no template id is supplied and the destination tenant has no
custom template, the bridge fails with a message instructing the operator
to supply a Custom Template UUID; an item failing with that message is
recorded as failed while the rest of the vault still gets processed. -/
theorem c8_custom_template_missing (cid : Option String) (cenv : CliEnv)
    (ts : List OpTemplate)
    (hp : templateProvided cid = false)
    (hf : cenv.sourceItemFetch = .ok ())
    (hl : cenv.templateList = .ok ts)
    (hno : ts.find? (fun t => t.name == "Custom" || t.category == "CUSTOM") = none) :
    (∃ msg, createCustomItemViaCLI cid cenv = .error msg
      ∧ jsIncludes msg "Please provide a Custom Template UUID" = true)
    ∧ (∀ (env : MigEnv) (vid : String) (items : List MigItem) (i : Nat) (it : MigItem),
        env.vaultCreate = .ok vid → env.listItems = .ok items →
        (∀ j, env.cancelled j = false) → env.itemOutcome i = some noTemplateMsg →
        items.get? i = some it →
        ∃ r, migrateVault env = .ok r
          ∧ r.migrationResults.length = items.length
          ∧ r.migrationResults.get? i
              = some ⟨it.id, it.title, false, some noTemplateMsg,
                  ((i : Rat) + 1) / (items.length : Rat) * 100⟩) := by
  constructor
  · refine ⟨noTemplateMsg, ?_, by decide⟩
    rw [createCustomItemViaCLI, hf, resolveCustomTemplateId.eq_def, if_neg (by simp [hp]), hl]
    simp [hno]
  · intro env vid items i it henvv henvl hc hoc hgit
    have hrun := migrateVault_noCancel env vid items henvv henvl hc
    refine ⟨_, hrun, by simp [listResultsFor_length], ?_⟩
    have hg := listResultsFor_get? env.itemOutcome items.length items 0 i it hgit
    simp only at hg
    rw [hg]
    simp [itemResultFor, hoc]

/-- C8 witness: an empty template list, no supplied id, failing second item
of a two-item vault. -/
theorem c8_custom_template_missing_witness :
    (∃ msg, createCustomItemViaCLI none ⟨.ok (), .ok [], .ok ()⟩ = .error msg
      ∧ jsIncludes msg "Please provide a Custom Template UUID" = true)
    ∧ (∀ (env : MigEnv) (vid : String) (items : List MigItem) (i : Nat) (it : MigItem),
        env.vaultCreate = .ok vid → env.listItems = .ok items →
        (∀ j, env.cancelled j = false) → env.itemOutcome i = some noTemplateMsg →
        items.get? i = some it →
        ∃ r, migrateVault env = .ok r
          ∧ r.migrationResults.length = items.length
          ∧ r.migrationResults.get? i
              = some ⟨it.id, it.title, false, some noTemplateMsg,
                  ((i : Rat) + 1) / (items.length : Rat) * 100⟩) :=
  c8_custom_template_missing none ⟨.ok (), .ok [], .ok ()⟩ [] rfl rfl rfl rfl

/-! ### `getVaultItemCount` -/

/-- Environment of one `getVaultItemCount` call: the outcome of listing
active items (also standing for client initialization) and the outcome of
listing archived items; each successful listing is summarized by its
length. -/
structure CountEnv where
  activeList : Except String Nat
  archivedList : Except String Nat

/-- `getVaultItemCount`: return the number of active items; an inner
failure fetching archived items is only logged as a warning; any failure
of the active listing is caught and `0` is returned. -/
def getVaultItemCount (cenv : CountEnv) : Except String Nat :=
  match cenv.activeList with
  | .error _ => .ok 0
  | .ok activeCount =>
    match cenv.archivedList with
    | .error _ => .ok activeCount
    | .ok _ => .ok activeCount

/-- C10: the item-count operation never raises: it returns the active-item
count, returns `0` when the active listing fails, and its result does not
depend on the archived-item listing. -/
theorem c10_item_count_total (cenv : CountEnv) :
    (∃ n, getVaultItemCount cenv = .ok n)
    ∧ (∀ n, cenv.activeList = .ok n → getVaultItemCount cenv = .ok n)
    ∧ (∀ e, cenv.activeList = .error e → getVaultItemCount cenv = .ok 0)
    ∧ (∀ arch, getVaultItemCount { cenv with archivedList := arch } = getVaultItemCount cenv) := by
  refine ⟨?_, ?_, ?_, ?_⟩
  · rw [getVaultItemCount]
    cases cenv.activeList with
    | error e => exact ⟨0, rfl⟩
    | ok n =>
      cases cenv.archivedList with
      | error e => exact ⟨n, rfl⟩
      | ok m => exact ⟨n, rfl⟩
  · intro n hn
    rw [getVaultItemCount, hn]
    cases cenv.archivedList <;> rfl
  · intro e he
    rw [getVaultItemCount, he]
  · intro arch
    rw [getVaultItemCount, getVaultItemCount]
    cases cenv.activeList with
    | error e => rfl
    | ok n =>
      cases arch <;> cases cenv.archivedList <;> rfl

/-- C10 witness: a failing archived listing does not disturb the count;
a failing active listing yields 0. -/
theorem c10_item_count_total_witness :
    getVaultItemCount ⟨.ok 7, .error "archive down"⟩ = .ok 7
    ∧ getVaultItemCount ⟨.error "listing down", .ok 3⟩ = .ok 0 :=
  ⟨(c10_item_count_total ⟨.ok 7, .error "archive down"⟩).2.1 7 rfl,
   (c10_item_count_total ⟨.error "listing down", .ok 3⟩).2.2.1 "listing down" rfl⟩

end VaultMigration
